import Mathlib

/-!
# xpic: window screenshots over XShm / XComposite

A shallow embedding of `src/xpic.c`.  The X server, the C library and the
file system are an explicit environment (`Env`, `CaptureWorld`); every call
that leaves the process is recorded as an `Event`, so a run of `main` is a
status together with the ordered list of its events.

Conventions
* `unsigned int` values are naturals reduced modulo `2 ^ 32`; `unsigned long`
  is 64 bits wide (LP64), so `ULONG_MAX = 2 ^ 64 - 1`.
* A `char` buffer is a `List Char`; the C string it holds is what precedes
  the first NUL (`cstr`).
* The pixel buffer `img->data` is read through an `unsigned int *`, so it is
  a list of 32-bit words, as many as the shared segment holds.  A store
  outside it has no defined effect: the alpha loop, and the capture that runs
  it, then have the result `none`.
-/

namespace Xpic

/-! ## C library -/

/-- The terminating character of a C string. -/
def NUL : Char := Char.ofNat 0

/-- Size of `output_file` in `main` (`<stdio.h>`, glibc). -/
def FILENAME_MAX : Nat := 4096

/-- Largest `unsigned long` (LP64). -/
def ULONG_MAX : Nat := 2 ^ 64 - 1

/-- Number of values of an `unsigned int`. -/
def UINT_RANGE : Nat := 2 ^ 32

/-- Conversion of an `unsigned int` to `int` (two's complement). -/
def to_int (u : Nat) : Int :=
  if u % UINT_RANGE < 2 ^ 31 then (u % UINT_RANGE : Nat) else (u % UINT_RANGE : Nat) - (UINT_RANGE : Int)

/-- Conversion of an `int` to `unsigned int`. -/
def to_uint (i : Int) : Nat := (i % (UINT_RANGE : Int)).toNat

/-- The value an `int` expression is left with: the mathematical value
wrapped to 32 bits, two's complement. -/
def wrap_int (i : Int) : Int := to_int (to_uint i)

/-- Conversion of an `int` to `size_t` (64 bits). -/
def to_size_t (i : Int) : Nat := (i % ((2 : Int) ^ 64)).toNat

/-- The C string held by a buffer: the characters before the first NUL. -/
def cstr (buf : List Char) : List Char := buf.takeWhile (fun c => c != NUL)

/-- Length of the C string held by a buffer (`strlen`). -/
def strlen (buf : List Char) : Nat := (cstr buf).length

/-- Store `bytes` into `buf` from offset `off` on.  A store that runs past the
end of the buffer makes the list longer: that is the out-of-bounds write of C,
visible as a length other than the buffer's size. -/
def poke (buf : List Char) (off : Nat) (bytes : List Char) : List Char :=
  buf.take off ++ bytes ++ buf.drop (off + bytes.length)

/-- C `strcpy(dest, src)`. -/
def strcpy (dest src : List Char) : List Char := poke dest 0 (cstr src ++ [NUL])

/-- C `strcat(dest, src)`. -/
def strcat (dest src : List Char) : List Char :=
  poke dest (strlen dest) (cstr src ++ [NUL])

/-- The call `strftime(buf, max, "xpic-%Y%m%d%H%M%S-", tm)`.  `stamp` is the
text the six conversions expand to for `tm`.  When the result and its NUL do
not fit in `max` characters nothing is stored. -/
def strftime (buf : List Char) (max : Nat) (stamp : List Char) : List Char :=
  let out := "xpic-".toList ++ stamp ++ "-".toList
  if out.length + 1 ≤ max then poke buf 0 (out ++ [NUL]) else buf

/-- C `isspace` in the "C" locale. -/
def isspace (c : Char) : Bool :=
  c = ' ' || (9 ≤ c.toNat && c.toNat ≤ 13)

/-- Value of a character as a digit, letters standing for 10 to 35. -/
def digit_value (c : Char) : Option Nat :=
  if '0' ≤ c ∧ c ≤ '9' then some (c.toNat - '0'.toNat)
  else if 'a' ≤ c ∧ c ≤ 'z' then some (c.toNat - 'a'.toNat + 10)
  else if 'A' ≤ c ∧ c ≤ 'Z' then some (c.toNat - 'A'.toNat + 10)
  else none

/-- Value of a character as a digit of the given base, if it is one. -/
def digit_in (base : Nat) (c : Char) : Option Nat :=
  match digit_value c with
  | some d => if d < base then some d else none
  | none => none

/-- Value of the longest run of digits of the given base at the front of the
text, on top of `acc`. -/
def scan_digits (base : Nat) : List Char → Nat → Nat
  | [], acc => acc
  | c :: cs, acc =>
    match digit_in base c with
    | some d => scan_digits base cs (acc * base + d)
    | none => acc

/-- What `strtoul` hands back: the value and whether it set `errno`
(to `ERANGE`). -/
structure StrtoulResult where
  value : Nat
  erange : Bool
deriving DecidableEq, Repr

/-- Sign of the subject sequence and the text after it. -/
def strtoul_sign (s : List Char) : Bool × List Char :=
  match s with
  | c :: r => if c = '-' then (true, r) else if c = '+' then (false, r) else (false, s)
  | [] => (false, s)

/-- Base chosen by `strtoul(…, 0)` and the text of the digits. -/
def strtoul_base (s : List Char) : Nat × List Char :=
  match s with
  | z :: x :: h :: r =>
    if z = '0' ∧ (x = 'x' ∨ x = 'X') ∧ (digit_in 16 h).isSome then (16, h :: r)
    else if z = '0' then (8, s) else (10, s)
  | z :: _ => if z = '0' then (8, s) else (10, s)
  | [] => (10, s)

/-- C `strtoul(s, NULL, 0)` called with `errno = 0`: white space is skipped,
a sign is accepted, the base follows the prefix (`0x` sixteen, `0` eight,
otherwise ten).  Text without digits gives 0 and leaves `errno` alone; only a
value above `ULONG_MAX` sets `errno`, and then `ULONG_MAX` is returned. -/
def strtoul (s : List Char) : StrtoulResult :=
  let signed := strtoul_sign (s.dropWhile isspace)
  let based := strtoul_base signed.2
  let v := scan_digits based.1 based.2 0
  if v > ULONG_MAX then ⟨ULONG_MAX, true⟩
  else ⟨if signed.1 then (ULONG_MAX + 1 - v) % (ULONG_MAX + 1) else v, false⟩

/-! ## Events and environment -/

/-- A call that leaves the process, or a store into the shared pixel buffer. -/
inductive Event where
  | setenv_gdk_backend
  | error (msg : String)
  | stdout (msg : String)
  | XOpenDisplay
  | XShmQueryExtension
  | XCompositeQueryExtension
  | XCompositeQueryVersion
  | read_windows (i : Nat)
  | read_argv (i : Nat)
  | time
  | take_screenshot (window : Nat) (output_file : List Char)
  | XCompositeRedirectWindow (w : Nat)
  | XCompositeNameWindowPixmap (w : Nat)
  | XGetGeometry (d : Nat)
  | XShmCreateImage (depth w h : Nat)
  | shmget (size : Int)
  | shmat
  | shmctl_rmid
  | XShmAttach
  | XSync
  | XShmGetImage (d : Nat)
  | alpha (data : List Nat)
  | fopen (path : List Char)
  | png_image_write (width height scanline : Nat) (data : List Nat)
  | fclose
  | XShmDetach
  | shmdt
  | XDestroyImage
  | XFlush
  | XCloseDisplay
deriving DecidableEq, Repr

/-- The `_Region` of the source: geometry of a drawable. -/
structure Region where
  x : Int
  y : Int
  w : Nat
  h : Nat
  b : Nat
  d : Nat
deriving DecidableEq, Repr

/-- The fields of `XImage` the program reads. -/
structure XImage where
  width : Int
  height : Int
  bits_per_pixel : Int
  bytes_per_line : Int
  data : List Nat
deriving DecidableEq, Repr

/-- What the outside world answers during one iteration of the capture loop. -/
structure CaptureWorld where
  /-- Expansion of `%Y%m%d%H%M%S` for `localtime(time(NULL))`. -/
  stamp : List Char
  /-- Reply of `XGetGeometry`. -/
  region : Region
  /-- Pixel size chosen by `XShmCreateImage`. -/
  bits_per_pixel : Int
  /-- Stride chosen by `XShmCreateImage`. -/
  bytes_per_line : Int
  /-- Whether `shmget` returns a segment. -/
  shmget_ok : Bool
  /-- Whether `shmat` maps it. -/
  shmat_ok : Bool
  /-- Whether `XShmAttach` succeeds. -/
  attach_ok : Bool
  /-- The words `XShmGetImage` delivers into the segment. -/
  pixels : List Nat
  /-- Whether `fopen(path, "w")` succeeds. -/
  fopen_ok : Bool
  /-- Whether `png_image_write_to_stdio` succeeds. -/
  png_ok : Bool

/-- The display server and the per-capture answers of the outside world. -/
structure Env where
  /-- Whether `XOpenDisplay(NULL)` returns a display. -/
  display_opens : Bool
  /-- Answer of `XShmQueryExtension`. -/
  shm_extension : Bool
  /-- Answer of `XCompositeQueryExtension`. -/
  composite_extension : Bool
  /-- Answer of `XCompositeQueryVersion`: `none` when the query fails. -/
  composite_version : Option (Int × Int)
  /-- The value of `DefaultRootWindow(dpy)`. -/
  root : Nat
  /-- The pixmap `XCompositeNameWindowPixmap` returns for a window. -/
  name_pixmap : Nat → Nat
  /-- The answers during iteration `i` of the capture loop. -/
  capture : Nat → CaptureWorld

/-- The `ScreenshotContext` of the source; `dpy` is the environment. -/
structure ScreenshotContext where
  window : Nat
  output_file : List Char
deriving DecidableEq, Repr

/-! ## The program -/

/-- Source `save_as_png`: result and events. -/
def save_as_png (cw : CaptureWorld) (img : XImage) (path : List Char) : Int × List Event :=
  if !cw.fopen_ok then
    (-1, [Event.fopen (cstr path), Event.error "couldn't open file\n"])
  else
    let width := to_uint img.width
    let height := to_uint img.height
    let scanline := (width * to_uint img.bits_per_pixel) % UINT_RANGE / 8
    if !cw.png_ok then
      (-1, [Event.fopen (cstr path), Event.png_image_write width height scanline img.data,
            Event.fclose, Event.error "could not save the png image\n"])
    else
      (0, [Event.fopen (cstr path), Event.png_image_write width height scanline img.data,
           Event.fclose])

/-- Source `get_default_file_name`; `stamp` is the text of the clock reading
(`time`, `localtime` and the conversions of `strftime`). -/
def get_default_file_name (default_file_name stamp id extension : List Char) : List Char :=
  strcat (strcat (strftime default_file_name FILENAME_MAX stamp) id) extension

/-- Source `init_shm`: result, the image, and events.  The test `!img` of the
source looks at the address of the out-parameter and is never taken.  The
size handed to `shmget` is the `int` product `bytes_per_line * height`. -/
def init_shm (cw : CaptureWorld) (sr : Region) : Int × XImage × List Event :=
  let img : XImage :=
    { width := to_int sr.w, height := to_int sr.h, bits_per_pixel := cw.bits_per_pixel,
      bytes_per_line := cw.bytes_per_line, data := [] }
  let create := Event.XShmCreateImage sr.d sr.w sr.h
  let get := Event.shmget (wrap_int (img.bytes_per_line * img.height))
  if !cw.shmget_ok then
    (-1, img, [create, get, Event.error "couldn't get shared memory\n"])
  else if !cw.shmat_ok then
    (-1, img, [create, get, Event.shmat, Event.error "couldn't map shared memory address space\n"])
  else if !cw.attach_ok then
    (-1, img, [create, get, Event.shmat, Event.shmctl_rmid, Event.XShmAttach,
               Event.error "couldn't attach to shared memory\n"])
  else
    (0, img, [create, get, Event.shmat, Event.shmctl_rmid, Event.XShmAttach, Event.XSync])

/-- Source `uninit_shm`: result and events. -/
def uninit_shm : Int × List Event :=
  (0, [Event.XShmDetach, Event.shmdt, Event.XDestroyImage])

/-- The constant `0xff000000` of the alpha loop. -/
def OPAQUE_MASK : Nat := 0xff000000

/-- The statement `*p |= 0xff000000` on the word at index `p`; `none` when
the word lies outside the buffer (the store is unguarded in the source, so
that is a write past the segment). -/
def or_alpha (data : List Nat) (p : Nat) : Option (List Nat) :=
  match data[p]? with
  | some v => some (data.set p (v ||| OPAQUE_MASK))
  | none => none

/-- The inner loop `for (x = 0; x < width; ++x) *p++ |= 0xff000000`, on the
buffer and the pointer; `none` when a store falls outside the buffer. -/
def alpha_row : Nat → List Nat × Nat → Option (List Nat × Nat)
  | 0, s => some s
  | n + 1, (data, p) =>
    match or_alpha data p with
    | some stored => alpha_row n (stored, p + 1)
    | none => none

/-- The outer loop `for (y = 0; y < height; ++y)`. -/
def alpha_rows (width : Nat) : Nat → List Nat × Nat → Option (List Nat × Nat)
  | 0, s => some s
  | n + 1, s =>
    match alpha_row width s with
    | some s1 => alpha_rows width n s1
    | none => none

/-- The alpha loop of `take_window_screenshot_xshm`, `p` starting at
`img->data`; a negative `int` bound runs its loop zero times.  `none` when the
loop stores outside the buffer. -/
def alpha_loop (data : List Nat) (width height : Int) : Option (List Nat) :=
  match alpha_rows width.toNat height.toNat (data, 0) with
  | some s => some s.1
  | none => none

/-- Number of whole 32-bit words in the segment `init_shm` creates for an
image: `shmget` is given `bytes_per_line * height` bytes. -/
def segment_words (img : XImage) : Nat :=
  to_size_t (wrap_int (img.bytes_per_line * img.height)) / 4

/-- The segment after `XShmGetImage`: the words the server delivered, as
many as the segment holds. -/
def fill_segment (cw : CaptureWorld) (img : XImage) : List Nat :=
  (cw.pixels ++ List.replicate (segment_words img) 0).take (segment_words img)

/-- Source `take_window_screenshot_xshm`: result and events.  The result is
`none`, and the events end with the fill, when the alpha loop stores outside
the segment: from there on the behaviour of the source is undefined. -/
def take_window_screenshot_xshm (cw : CaptureWorld) (ctx : ScreenshotContext) :
    Option Int × List Event :=
  let sr := cw.region
  let geometry := [Event.XGetGeometry ctx.window]
  let init := init_shm cw sr
  if init.1 = -1 then
    (some (-1), geometry ++ init.2.2)
  else
    match alpha_loop (fill_segment cw init.2.1) init.2.1.width init.2.1.height with
    | none => (none, geometry ++ init.2.2 ++ [Event.XShmGetImage ctx.window])
    | some data =>
      let img := { init.2.1 with data := data }
      let save := save_as_png cw img ctx.output_file
      (some 0, geometry ++ init.2.2 ++ [Event.XShmGetImage ctx.window, Event.alpha img.data]
            ++ save.2 ++ uninit_shm.2)

/-- Source `take_window_screenshot_composite`: the context it leaves, result
and events.  `ctx->window` is an `unsigned int`. -/
def take_window_screenshot_composite (env : Env) (cw : CaptureWorld)
    (ctx : ScreenshotContext) : ScreenshotContext × Option Int × List Event :=
  if ctx.window ≠ env.root then
    let p := env.name_pixmap ctx.window
    let ctx1 := { ctx with window := p % UINT_RANGE }
    let shot := take_window_screenshot_xshm cw ctx1
    (ctx1, shot.1,
      [Event.XCompositeRedirectWindow ctx.window, Event.XCompositeNameWindowPixmap ctx.window]
        ++ shot.2)
  else
    let shot := take_window_screenshot_xshm cw ctx
    (ctx, shot.1, shot.2)

/-- Source `check_xcomposite`: result and events. -/
def check_xcomposite (env : Env) : Int × List Event :=
  if !env.composite_extension then
    (-1, [Event.XCompositeQueryExtension, Event.error "X Composite Extension is not available\n"])
  else
    match env.composite_version with
    | none =>
      (-1, [Event.XCompositeQueryExtension, Event.XCompositeQueryVersion,
            Event.error "X Composite Extension has a non compatible version\n"])
    | some (c_major, c_minor) =>
      if c_minor < 2 ∧ c_major = 0 then
        (-1, [Event.XCompositeQueryExtension, Event.XCompositeQueryVersion,
              Event.error "X Composite Extension has a non compatible version\n"])
      else
        (0, [Event.XCompositeQueryExtension, Event.XCompositeQueryVersion])

/-- The two values of the function pointer `take_screenshot`. -/
inductive TakeScreenshotFunction where
  | composite
  | xshm
deriving DecidableEq, Repr

/-- A call through the function pointer. -/
def TakeScreenshotFunction.call (f : TakeScreenshotFunction) (env : Env) (cw : CaptureWorld)
    (ctx : ScreenshotContext) : ScreenshotContext × Option Int × List Event :=
  match f with
  | .composite => take_window_screenshot_composite env cw ctx
  | .xshm => (ctx, take_window_screenshot_xshm cw ctx)

/-- How a run, or a loop of it, ends. -/
inductive Status where
  /-- Source `main` returned this value. -/
  | exited (code : Int)
  /-- An array was read outside its bounds. -/
  | out_of_bounds
  /-- The step budget of the model ran out. -/
  | out_of_fuel
deriving DecidableEq, Repr

/-- A run: how it ended and what it did, in order. -/
structure Run where
  status : Status
  trace : List Event
deriving DecidableEq, Repr

/-- The `getopt` loop of `main`: `oargs` are the arguments of the `-o`
options `getopt` reports, in order.  Gives `use_default_filename` and
`output_file`. -/
def option_loop (oargs : List (List Char)) : Bool × List Char :=
  oargs.foldl (fun s optarg => (false, strcpy s.2 optarg)) (true, List.replicate FILENAME_MAX NUL)

/-- The window id `main` stores for an argument: `unsigned int window = strtoul(…)`. -/
def parsed_window (arg : List Char) : Nat := (strtoul arg).value % UINT_RANGE

/-- The argument loop of `main`, `for (i = optind; i < argc; ++i)`, with `n`
iterations left: the window array it leaves, or the argument `strtoul`
refused. -/
def parse_loop (argv : List (List Char)) (optind : Nat) :
    Nat → Nat → List Nat → Except (List Char) (List Nat)
  | 0, _, windows => .ok windows
  | n + 1, i, windows =>
    let arg := argv.getD i []
    let r := strtoul arg
    if r.erange then .error arg
    else parse_loop argv optind n (i + 1) (windows.set (i - optind) (parsed_window arg))

/-- The head of the body of the capture loop: the output buffer after
`if (use_default_filename) get_default_file_name(output_file, argv[i+optind], ".png")`
and the events of that statement; `none` when `argv` is read outside its
`argc` entries. -/
def choose_output (argv : List (List Char)) (optind : Nat) (use_default_filename : Bool)
    (i : Nat) (output_file stamp : List Char) : Option (List Char × List Event) :=
  if use_default_filename then
    match argv[i + optind]? with
    | some id =>
      some (get_default_file_name output_file stamp id ".png".toList,
            [Event.read_argv (i + optind), Event.time])
    | none => none
  else some (output_file, [])

/-- The capture loop of `main`, entered with `ctx.window = windows[i]`.  As in
the source the value `take_screenshot` returns is not looked at: the loop goes
on with the context the call left.  A capture is taken as a call that
returns; one whose result is `none` has left defined behaviour, and what the
process does after it is not described by this loop. -/
def capture_loop (env : Env) (argv : List (List Char)) (optind : Nat)
    (use_default_filename : Bool) (windows : List Nat) (take_screenshot : TakeScreenshotFunction) :
    Nat → Nat → ScreenshotContext → Run
  | 0, _, _ => ⟨.out_of_fuel, []⟩
  | fuel + 1, i, ctx =>
    if ctx.window = 0 then ⟨.exited 0, []⟩
    else
      let cw := env.capture i
      match choose_output argv optind use_default_filename i ctx.output_file cw.stamp with
      | none => ⟨.out_of_bounds, []⟩
      | some (output_file, clock) =>
        let ctx1 : ScreenshotContext := { ctx with output_file := output_file }
        let shot := take_screenshot.call env cw ctx1
        let here := clock ++ [Event.take_screenshot ctx1.window (cstr ctx1.output_file)] ++ shot.2.2
        match windows[i + 1]? with
        | none => ⟨.out_of_bounds, here ++ [Event.read_windows (i + 1)]⟩
        | some w =>
          let rest := capture_loop env argv optind use_default_filename windows take_screenshot
            fuel (i + 1) { shot.1 with window := w }
          ⟨rest.status, here ++ [Event.read_windows (i + 1)] ++ rest.trace⟩

/-- The choice `main` makes from the result of `check_xcomposite`. -/
def select_strategy (check : Int) : TakeScreenshotFunction × List Event :=
  if check = 0 then (.composite, [])
  else (.xshm, [Event.stdout "falling back to XShm\n"])

/-- Source `main`, from the state `getopt` leaves (`optind`, the `-o`
arguments) to the end of the run.  `argc` is the length of `argv`. -/
def main (env : Env) (argv : List (List Char)) (optind : Nat) (oargs : List (List Char)) : Run :=
  let argc := argv.length
  let opts := option_loop oargs
  let start := [Event.setenv_gdk_backend]
  match parse_loop argv optind (argc - optind) optind (List.replicate argc 0) with
  | .error _ => ⟨.exited (-1), start ++ [Event.error "bad argument %s: %s\n"]⟩
  | .ok windows =>
    if !env.display_opens then
      ⟨.exited (-1), start ++ [Event.XOpenDisplay, Event.error "failed to open display %s\n"]⟩
    else if !env.shm_extension then
      ⟨.exited (-1), start ++ [Event.XOpenDisplay, Event.XShmQueryExtension,
        Event.error "X Shared Memory Extension is not available\n"]⟩
    else
      let check := check_xcomposite env
      let strategy := select_strategy check.1
      let setup := start ++ [Event.XOpenDisplay, Event.XShmQueryExtension] ++ check.2 ++ strategy.2
      match windows[0]? with
      | none => ⟨.out_of_bounds, setup ++ [Event.read_windows 0]⟩
      | some w =>
        let loop := capture_loop env argv optind opts.1 windows strategy.1 (argc + 1) 0
          { window := w, output_file := opts.2 }
        match loop.status with
        | .exited _ =>
          ⟨.exited 0, setup ++ [Event.read_windows 0] ++ loop.trace ++
            [Event.XFlush, Event.XCloseDisplay]⟩
        | s => ⟨s, setup ++ [Event.read_windows 0] ++ loop.trace⟩

/-- The window array after the argument loop of `main` when no argument is
refused: the stored ids, then what the `memset` left (see `parse_loop_main`). -/
def main_windows (argv : List (List Char)) (optind : Nat) : List Nat :=
  (argv.drop optind).map parsed_window ++ List.replicate optind 0

/-- The capture loop as `main` enters it when no argument is refused. -/
def main_capture_loop (env : Env) (argv : List (List Char)) (optind : Nat)
    (oargs : List (List Char)) : Run :=
  capture_loop env argv optind (option_loop oargs).1 (main_windows argv optind)
    (select_strategy (check_xcomposite env).1).1 (argv.length + 1) 0
    { window := (main_windows argv optind).headD 0, output_file := (option_loop oargs).2 }

/-! ## Observations on a trace -/

/-- The window ids handed to `take_screenshot`, in order. -/
def captured_windows (trace : List Event) : List Nat :=
  trace.filterMap fun e =>
    match e with
    | Event.take_screenshot w _ => some w
    | _ => none

/-- The output paths handed to `take_screenshot`, in order. -/
def captured_paths (trace : List Event) : List (List Char) :=
  trace.filterMap fun e =>
    match e with
    | Event.take_screenshot _ path => some path
    | _ => none

/-- Whether an event is a request to the compositing extension for a window. -/
def is_composite_request (e : Event) : Bool :=
  match e with
  | Event.XCompositeRedirectWindow _ => true
  | Event.XCompositeNameWindowPixmap _ => true
  | _ => false

/-- The requests made to the compositing extension for a window, in order. -/
def composite_requests (trace : List Event) : List Event :=
  trace.filter is_composite_request

/-- The drawables whose geometry or pixels are requested, in order. -/
def drawables (trace : List Event) : List Nat :=
  trace.filterMap fun e =>
    match e with
    | Event.XGetGeometry d => some d
    | Event.XShmGetImage d => some d
    | _ => none

/-- The indices at which the window array is read, in order. -/
def window_reads (trace : List Event) : List Nat :=
  trace.filterMap fun e =>
    match e with
    | Event.read_windows i => some i
    | _ => none

/-- Whether an event belongs to the loop of `main` itself rather than to a
capture. -/
def is_loop_event (e : Event) : Bool :=
  match e with
  | Event.take_screenshot _ _ => true
  | Event.read_windows _ => true
  | Event.read_argv _ => true
  | _ => false

/-- The indices at which `argv` is read by the capture loop, in order. -/
def argv_reads (trace : List Event) : List Nat :=
  trace.filterMap fun e =>
    match e with
    | Event.read_argv i => some i
    | _ => none

/-- An environment in which everything succeeds: compositing 0.4, root window
`0x100`, pixmap ids `w + 0x400000`, a 2 by 1 image of depth 32, and a clock that
advances by one second per capture. -/
def demoEnv : Env where
  display_opens := true
  shm_extension := true
  composite_extension := true
  composite_version := some (0, 4)
  root := 0x100
  name_pixmap := fun w => w + 0x400000
  capture := fun i =>
    { stamp := "2024010112000".toList ++ [Char.ofNat (48 + i % 10)]
      region := { x := 0, y := 0, w := 2, h := 1, b := 0, d := 32 }
      bits_per_pixel := 32
      bytes_per_line := 8
      shmget_ok := true
      shmat_ok := true
      attach_ok := true
      pixels := [0x00112233, 0x80445566]
      fopen_ok := true
      png_ok := true }

/-- The command line `xpic 0x2a 7`. -/
def argv_two : List (List Char) := ["xpic".toList, "0x2a".toList, "7".toList]

/-- The command line `xpic 0x2a abc`. -/
def argv_malformed : List (List Char) := ["xpic".toList, "0x2a".toList, "abc".toList]

/-! ## The alpha loop -/

theorem or_alpha_some (d : List Nat) (p : Nat) (hp : p < d.length) :
    or_alpha d p = some (d.set p (d[p] ||| OPAQUE_MASK)) := by
  unfold or_alpha
  rw [List.getElem?_eq_getElem hp]

theorem or_alpha_none (d : List Nat) (p : Nat) (hp : d.length ≤ p) : or_alpha d p = none := by
  unfold or_alpha
  rw [List.getElem?_eq_none hp]

theorem set_or_getElem? (d : List Nat) (p i : Nat) (hp : p < d.length) :
    (d.set p (d[p] ||| OPAQUE_MASK))[i]? =
      if i = p then d[i]?.map (fun v => v ||| OPAQUE_MASK) else d[i]? := by
  by_cases h : i = p
  · subst h
    rw [if_pos rfl, List.getElem?_set_self hp, List.getElem?_eq_getElem hp]
    rfl
  · rw [if_neg h, List.getElem?_set_ne (Ne.symm h)]

/-- A row of the alpha loop that stays inside the buffer. -/
theorem alpha_row_some (n : Nat) : ∀ (d : List Nat) (p : Nat), p + n ≤ d.length →
    ∃ d1, alpha_row n (d, p) = some (d1, p + n) ∧ d1.length = d.length ∧
      ∀ i : Nat, d1[i]? =
        if p ≤ i ∧ i < p + n then d[i]?.map (fun v => v ||| OPAQUE_MASK) else d[i]? := by
  induction n with
  | zero =>
    intro d p _
    refine ⟨d, rfl, rfl, ?_⟩
    intro i
    rw [if_neg (by omega)]
  | succ n ih =>
    intro d p hp
    have hlt : p < d.length := by omega
    obtain ⟨d1, e1, e2, e3⟩ := ih (d.set p (d[p] ||| OPAQUE_MASK)) (p + 1)
      (by rw [List.length_set]; omega)
    refine ⟨d1, ?_, ?_, ?_⟩
    · simp only [alpha_row, or_alpha_some d p hlt]
      rw [e1]
      congr 2
      omega
    · rw [e2, List.length_set]
    · intro i
      rw [e3 i, set_or_getElem? d p i hlt]
      by_cases h1 : i = p
      · rw [if_neg (by omega), if_pos h1, if_pos (by omega)]
      · by_cases h2 : p + 1 ≤ i ∧ i < p + 1 + n
        · rw [if_pos h2, if_neg h1, if_pos (by omega)]
        · rw [if_neg h2, if_neg h1, if_neg (by omega)]

/-- A row of the alpha loop that runs past the buffer. -/
theorem alpha_row_none (n : Nat) : ∀ (d : List Nat) (p : Nat), p ≤ d.length →
    d.length < p + n → alpha_row n (d, p) = none := by
  induction n with
  | zero => intro d p h0 h; omega
  | succ n ih =>
    intro d p h0 h
    by_cases hlt : p < d.length
    · simp only [alpha_row, or_alpha_some d p hlt]
      exact ih _ _ (by rw [List.length_set]; omega) (by rw [List.length_set]; omega)
    · simp only [alpha_row, or_alpha_none d p (by omega)]

theorem alpha_rows_some (w : Nat) (n : Nat) : ∀ (d : List Nat) (p : Nat),
    p + n * w ≤ d.length →
    ∃ d1, alpha_rows w n (d, p) = some (d1, p + n * w) ∧ d1.length = d.length ∧
      ∀ i : Nat, d1[i]? =
        if p ≤ i ∧ i < p + n * w then d[i]?.map (fun v => v ||| OPAQUE_MASK) else d[i]? := by
  induction n with
  | zero =>
    intro d p _
    refine ⟨d, by simp [alpha_rows], rfl, ?_⟩
    intro i
    rw [if_neg (by omega)]
  | succ n ih =>
    intro d p hp
    have hm : (n + 1) * w = n * w + w := by ring
    obtain ⟨d0, a1, a2, a3⟩ := alpha_row_some w d p (by rw [hm] at hp; omega)
    obtain ⟨d1, e1, e2, e3⟩ := ih d0 (p + w) (by rw [a2]; rw [hm] at hp; omega)
    refine ⟨d1, ?_, ?_, ?_⟩
    · simp only [alpha_rows, a1]
      rw [e1]
      congr 2
      rw [hm]
      omega
    · rw [e2, a2]
    · intro i
      rw [e3 i, a3 i, hm]
      by_cases h1 : p ≤ i ∧ i < p + w
      · rw [if_neg (by omega), if_pos h1, if_pos (by omega)]
      · by_cases h2 : p + w ≤ i ∧ i < p + w + n * w
        · rw [if_pos h2, if_neg h1, if_pos (by omega)]
        · rw [if_neg h2, if_neg h1, if_neg (by omega)]

theorem alpha_rows_none (w : Nat) (n : Nat) : ∀ (d : List Nat) (p : Nat), p ≤ d.length →
    d.length < p + n * w → alpha_rows w n (d, p) = none := by
  induction n with
  | zero => intro d p h0 h; omega
  | succ n ih =>
    intro d p h0 h
    have hm : (n + 1) * w = n * w + w := by ring
    by_cases hfit : p + w ≤ d.length
    · obtain ⟨d0, a1, a2, _⟩ := alpha_row_some w d p hfit
      simp only [alpha_rows, a1]
      exact ih d0 (p + w) (by rw [a2]; exact hfit) (by rw [a2]; rw [hm] at h; omega)
    · simp only [alpha_rows, alpha_row_none w d p h0 (by omega)]

/-- The alpha loop on a buffer of at least `width * height` words: every one
of the first `width * height` words is ORed with the mask, nothing else
changes. -/
theorem alpha_loop_some (d : List Nat) (w h : Int) (hfit : h.toNat * w.toNat ≤ d.length) :
    ∃ d1, alpha_loop d w h = some d1 ∧ d1.length = d.length ∧
      ∀ i : Nat, d1[i]? =
        if i < h.toNat * w.toNat then d[i]?.map (fun v => v ||| OPAQUE_MASK) else d[i]? := by
  obtain ⟨d1, e1, e2, e3⟩ := alpha_rows_some w.toNat h.toNat d 0 (by omega)
  refine ⟨d1, ?_, e2, ?_⟩
  · simp only [alpha_loop, e1]
  · intro i
    rw [e3 i]
    simp

/-- The alpha loop on a buffer of fewer than `width * height` words stores
outside it. -/
theorem alpha_loop_none (d : List Nat) (w h : Int) (hfit : d.length < h.toNat * w.toNat) :
    alpha_loop d w h = none := by
  simp only [alpha_loop, alpha_rows_none w.toNat h.toNat d 0 (Nat.zero_le _) (by omega)]

theorem or_mask_idem (v : Nat) : (v ||| OPAQUE_MASK) ||| OPAQUE_MASK = v ||| OPAQUE_MASK := by
  rw [Nat.lor_assoc, Nat.or_self]

theorem mask_testBit (i : Nat) :
    OPAQUE_MASK.testBit i = (decide (24 ≤ i) && decide (i - 24 < 8)) := by
  have e : OPAQUE_MASK = (2 ^ 8 - 1) <<< 24 := by decide
  rw [e, Nat.testBit_shiftLeft, Nat.testBit_two_pow_sub_one]

theorem or_mask_top (v : Nat) : (v ||| OPAQUE_MASK) / 2 ^ 24 % 256 = 255 := by
  apply Nat.eq_of_testBit_eq
  intro i
  rw [show (256 : Nat) = 2 ^ 8 from rfl, show (255 : Nat) = 2 ^ 8 - 1 from rfl,
    ← Nat.shiftRight_eq_div_pow, Nat.testBit_mod_two_pow, Nat.testBit_shiftRight,
    Nat.testBit_or, mask_testBit, Nat.testBit_two_pow_sub_one]
  by_cases h : i < 8
  · simp [h]
  · simp [h]

theorem or_mask_low (v : Nat) : (v ||| OPAQUE_MASK) % 2 ^ 24 = v % 2 ^ 24 := by
  apply Nat.eq_of_testBit_eq
  intro i
  rw [Nat.testBit_mod_two_pow, Nat.testBit_mod_two_pow, Nat.testBit_or, mask_testBit]
  by_cases h : i < 24
  · have : ¬ 24 ≤ i := by omega
    simp [h, this]
  · simp [h]

/-- C5: on a buffer of `w * h` pixel words the alpha loop stays inside the
buffer, keeps the length and replaces every word `v` by `v ||| 0xff000000`;
the top byte of every word is then `0xFF` and its three low bytes are those of
`v`. -/
theorem alpha_loop_sets_top_byte (data : List Nat) (w h : Nat) (hlen : data.length = w * h) :
    ∃ out : List Nat, alpha_loop data w h = some out ∧
      out.length = data.length ∧
      out = data.map (fun v => v ||| 0xff000000) ∧
      ∀ (i v : Nat), data[i]? = some v →
        ∃ v1 : Nat, out[i]? = some v1 ∧ v1 = v ||| 0xff000000 ∧
          v1 / 2 ^ 24 % 256 = 0xFF ∧ v1 % 2 ^ 24 = v % 2 ^ 24 := by
  obtain ⟨out, e1, e2, e3⟩ := alpha_loop_some data w h
    (by simp only [Int.toNat_ofNat]; rw [hlen, Nat.mul_comm])
  have hget : ∀ i : Nat, out[i]? = data[i]?.map (fun v => v ||| OPAQUE_MASK) := by
    intro i
    rw [e3 i]
    split
    · rfl
    · next hi =>
      have : data.length ≤ i := by
        simp only [Int.toNat_ofNat] at hi
        rw [hlen, Nat.mul_comm]; omega
      simp [List.getElem?_eq_none this]
  refine ⟨out, e1, e2, ?_, ?_⟩
  · apply List.ext_getElem?
    intro i
    rw [hget, List.getElem?_map]
    rfl
  · intro i v hv
    refine ⟨v ||| OPAQUE_MASK, ?_, rfl, or_mask_top v, or_mask_low v⟩
    rw [hget, hv]; rfl

/-- Witness for C5: a 2 by 1 buffer. -/
theorem alpha_loop_sets_top_byte_witness :
    alpha_loop [0x00112233, 0x80445566] (2 : Nat) (1 : Nat)
      = some ([0x00112233, 0x80445566].map (fun v => v ||| 0xff000000)) := by
  obtain ⟨out, h1, _, h3, _⟩ := alpha_loop_sets_top_byte [0x00112233, 0x80445566] 2 1 (by decide)
  rw [h1, h3]

/-- C6: the alpha loop is idempotent, for every buffer, width and height: a
second pass over what the first pass left gives the same words again (and a
loop that stores outside the buffer does so on either pass). -/
theorem alpha_loop_idempotent (data : List Nat) (width height : Int) :
    (alpha_loop data width height).bind (fun once => alpha_loop once width height)
        = alpha_loop data width height ∧
      ∀ once, alpha_loop data width height = some once →
        alpha_loop once width height = some once := by
  have key : ∀ once, alpha_loop data width height = some once →
      alpha_loop once width height = some once := by
    intro once h1
    by_cases hfit : height.toNat * width.toNat ≤ data.length
    · obtain ⟨d1, e1, e2, e3⟩ := alpha_loop_some data width height hfit
      rw [e1] at h1
      cases h1
      obtain ⟨d2, f1, _, f3⟩ := alpha_loop_some once width height (by rw [e2]; exact hfit)
      rw [f1]
      congr 1
      apply List.ext_getElem?
      intro i
      rw [f3 i, e3 i]
      split
      · cases data[i]? with
        | none => rfl
        | some v => simp [or_mask_idem]
      · rfl
    · rw [alpha_loop_none data width height (by omega)] at h1
      cases h1
  refine ⟨?_, key⟩
  cases h : alpha_loop data width height with
  | none => rfl
  | some once => exact key once h

/-- Witness for C6: a second pass over an opaque 2 by 1 buffer. -/
theorem alpha_loop_idempotent_witness :
    alpha_loop [0xff112233, 0xff445566] 2 1 = some [0xff112233, 0xff445566] :=
  (alpha_loop_idempotent [0x00112233, 0x80445566] 2 1).2 [0xff112233, 0xff445566] (by decide)

/-! ## Strings and the default file name -/

theorem cstr_append_nul (s r : List Char) (hs : NUL ∉ s) : cstr (s ++ NUL :: r) = s := by
  induction s with
  | nil => simp [cstr]
  | cons c cs ih =>
    have hc : c ≠ NUL := fun h => hs (by simp [h])
    have hcs : NUL ∉ cs := fun h => hs (by simp [h])
    have := ih hcs
    simp only [cstr] at this ⊢
    simp [List.takeWhile_cons, hc, this]

theorem cstr_of_no_nul (s : List Char) (hs : NUL ∉ s) : cstr s = s := by
  induction s with
  | nil => simp [cstr]
  | cons c cs ih =>
    have hc : c ≠ NUL := fun h => hs (by simp [h])
    have hcs : NUL ∉ cs := fun h => hs (by simp [h])
    have := ih hcs
    simp only [cstr] at this ⊢
    simp [List.takeWhile_cons, hc, this]

theorem poke_zero (buf bytes : List Char) : poke buf 0 bytes = bytes ++ buf.drop bytes.length := by
  simp [poke]

theorem poke_length (buf bytes : List Char) (off : Nat) (h : off + bytes.length ≤ buf.length) :
    (poke buf off bytes).length = buf.length := by
  simp [poke]; omega

theorem strcat_append_nul (s r src : List Char) (hs : NUL ∉ s) (hsrc : NUL ∉ src) :
    strcat (s ++ NUL :: r) src = (s ++ src) ++ NUL :: r.drop src.length := by
  simp [strcat, strlen, cstr_append_nul s r hs, cstr_of_no_nul src hsrc, poke]

theorem digit_ne_nul (c : Char) (hc : c.isDigit = true) : c ≠ NUL := by
  intro h
  subst h
  revert hc
  decide

theorem no_nul_of_digits (ts : List Char) (hts : ∀ c ∈ ts, c.isDigit = true) : NUL ∉ ts :=
  fun h => digit_ne_nul NUL (hts NUL h) rfl

/-- The buffer `get_default_file_name` leaves, in full. -/
theorem get_default_file_name_buffer (buf stamp id ext : List Char)
    (hstamp : NUL ∉ stamp) (hid : NUL ∉ id) (hext : NUL ∉ ext)
    (hfit : 6 + stamp.length + id.length + ext.length < FILENAME_MAX) :
    get_default_file_name buf stamp id ext =
      ("xpic-".toList ++ stamp ++ "-".toList ++ id ++ ext) ++
        NUL :: ((buf.drop (6 + stamp.length + 1)).drop id.length).drop ext.length := by
  have hout : NUL ∉ "xpic-".toList ++ stamp ++ "-".toList := by
    simp only [List.mem_append, not_or]
    exact ⟨⟨by decide, hstamp⟩, by decide⟩
  have hlen : ("xpic-".toList ++ stamp ++ "-".toList).length = 6 + stamp.length := by
    simp; omega
  have h1 : strftime buf FILENAME_MAX stamp =
      ("xpic-".toList ++ stamp ++ "-".toList) ++ NUL :: buf.drop (6 + stamp.length + 1) := by
    unfold strftime
    simp only []
    rw [if_pos (by rw [hlen]; omega), poke_zero, List.length_append, hlen]
    simp
  have hout2 : NUL ∉ "xpic-".toList ++ stamp ++ "-".toList ++ id := by
    intro h
    rcases List.mem_append.1 h with h | h
    · exact hout h
    · exact hid h
  unfold get_default_file_name
  rw [h1, strcat_append_nul _ _ _ hout hid, strcat_append_nul _ _ _ hout2 hext]

/-- The text `get_default_file_name` leaves and the size of the buffer. -/
theorem get_default_file_name_cstr (buf stamp id ext : List Char)
    (hbuf : buf.length = FILENAME_MAX)
    (hstamp : NUL ∉ stamp) (hid : NUL ∉ id) (hext : NUL ∉ ext)
    (hfit : 6 + stamp.length + id.length + ext.length < FILENAME_MAX) :
    cstr (get_default_file_name buf stamp id ext) =
        "xpic-".toList ++ stamp ++ "-".toList ++ id ++ ext ∧
      (get_default_file_name buf stamp id ext).length = FILENAME_MAX := by
  rw [get_default_file_name_buffer buf stamp id ext hstamp hid hext hfit]
  constructor
  · apply cstr_append_nul
    simp only [List.mem_append, not_or]
    exact ⟨⟨⟨⟨by decide, hstamp⟩, by decide⟩, hid⟩, hext⟩
  · simp
    omega

/-- C7: whatever the buffer held, `get_default_file_name` leaves exactly
`"xpic-" ++ ts ++ "-" ++ id ++ ext` in it (and stays inside it); so for one
timestamp the paths of two window ids share the prefix `"xpic-" ++ ts ++ "-"`
and the extension, and differ exactly when the ids differ. -/
theorem get_default_file_name_text (buf1 buf2 ts id1 id2 ext : List Char)
    (hbuf1 : buf1.length = FILENAME_MAX) (hbuf2 : buf2.length = FILENAME_MAX)
    (hlen : ts.length = 14) (hdigits : ∀ c ∈ ts, c.isDigit = true)
    (hid1 : NUL ∉ id1) (hid2 : NUL ∉ id2) (hext : NUL ∉ ext)
    (hfit1 : 20 + id1.length + ext.length < FILENAME_MAX)
    (hfit2 : 20 + id2.length + ext.length < FILENAME_MAX) :
    cstr (get_default_file_name buf1 ts id1 ext)
        = "xpic-".toList ++ ts ++ "-".toList ++ id1 ++ ext ∧
      (get_default_file_name buf1 ts id1 ext).length = FILENAME_MAX ∧
      cstr (get_default_file_name buf2 ts id2 ext)
        = "xpic-".toList ++ ts ++ "-".toList ++ id2 ++ ext ∧
      (id1 ≠ id2 →
        cstr (get_default_file_name buf1 ts id1 ext)
          ≠ cstr (get_default_file_name buf2 ts id2 ext)) := by
  have hts := no_nul_of_digits ts hdigits
  have e1 := get_default_file_name_cstr buf1 ts id1 ext hbuf1 hts hid1 hext (by omega)
  have e2 := get_default_file_name_cstr buf2 ts id2 ext hbuf2 hts hid2 hext (by omega)
  refine ⟨e1.1, e1.2, e2.1, ?_⟩
  intro hne heq
  rw [e1.1, e2.1] at heq
  apply hne
  have := List.append_cancel_right heq
  exact List.append_cancel_left this

/-- Witness for C7: the ids `0x2a` and `7` at one timestamp, over a buffer
full of `x` and an empty one. -/
theorem get_default_file_name_text_witness :
    cstr (get_default_file_name (List.replicate FILENAME_MAX 'x') "20240101120000".toList
        "0x2a".toList ".png".toList)
      = "xpic-".toList ++ "20240101120000".toList ++ "-".toList ++ "0x2a".toList
          ++ ".png".toList ∧
    cstr (get_default_file_name (List.replicate FILENAME_MAX 'x') "20240101120000".toList
        "0x2a".toList ".png".toList)
      ≠ cstr (get_default_file_name (List.replicate FILENAME_MAX NUL) "20240101120000".toList
        "7".toList ".png".toList) :=
  ⟨(get_default_file_name_text (List.replicate FILENAME_MAX 'x')
      (List.replicate FILENAME_MAX NUL) "20240101120000".toList "0x2a".toList "7".toList
      ".png".toList (List.length_replicate _ _) (List.length_replicate _ _) (by decide)
      (by decide) (by decide) (by decide) (by decide) (by decide) (by decide)).1,
   (get_default_file_name_text (List.replicate FILENAME_MAX 'x')
      (List.replicate FILENAME_MAX NUL) "20240101120000".toList "0x2a".toList "7".toList
      ".png".toList (List.length_replicate _ _) (List.length_replicate _ _) (by decide)
      (by decide) (by decide) (by decide) (by decide) (by decide) (by decide)).2.2.2
      (by decide)⟩

/-! ## Events of one capture -/

theorem xshm_no_loop_event (cw : CaptureWorld) (ctx : ScreenshotContext) :
    ∀ e ∈ (take_window_screenshot_xshm cw ctx).2, is_loop_event e = false := by
  intro e he
  simp only [take_window_screenshot_xshm] at he
  generalize alpha_loop _ _ _ = r at he
  simp only [init_shm, save_as_png, uninit_shm] at he
  cases r <;> cases h1 : cw.shmget_ok <;> cases h2 : cw.shmat_ok <;> cases h3 : cw.attach_ok <;>
    cases h4 : cw.fopen_ok <;> cases h5 : cw.png_ok <;>
    simp [h1, h2, h3, h4, h5] at he <;>
    (rcases he with rfl | rfl | rfl | rfl | rfl | rfl | rfl | rfl | rfl | rfl | rfl | rfl | rfl | rfl | rfl | rfl | rfl | rfl) <;> rfl

theorem xshm_no_composite_request (cw : CaptureWorld) (ctx : ScreenshotContext) :
    ∀ e ∈ (take_window_screenshot_xshm cw ctx).2, is_composite_request e = false := by
  intro e he
  simp only [take_window_screenshot_xshm] at he
  generalize alpha_loop _ _ _ = r at he
  simp only [init_shm, save_as_png, uninit_shm] at he
  cases r <;> cases h1 : cw.shmget_ok <;> cases h2 : cw.shmat_ok <;> cases h3 : cw.attach_ok <;>
    cases h4 : cw.fopen_ok <;> cases h5 : cw.png_ok <;>
    simp [h1, h2, h3, h4, h5] at he <;>
    (rcases he with rfl | rfl | rfl | rfl | rfl | rfl | rfl | rfl | rfl | rfl | rfl | rfl | rfl | rfl | rfl | rfl | rfl | rfl) <;> rfl

theorem xshm_drawables (cw : CaptureWorld) (ctx : ScreenshotContext) :
    drawables (take_window_screenshot_xshm cw ctx).2 =
      if (init_shm cw cw.region).1 = -1 then [ctx.window] else [ctx.window, ctx.window] := by
  simp only [take_window_screenshot_xshm]
  generalize alpha_loop _ _ _ = r
  simp only [init_shm, save_as_png, uninit_shm, drawables]
  cases r <;> cases h1 : cw.shmget_ok <;> cases h2 : cw.shmat_ok <;> cases h3 : cw.attach_ok <;>
    cases h4 : cw.fopen_ok <;> cases h5 : cw.png_ok <;>
    simp [h1, h2, h3, h4, h5, List.filterMap_cons]

theorem call_no_loop_event (f : TakeScreenshotFunction) (env : Env) (cw : CaptureWorld)
    (ctx : ScreenshotContext) : ∀ e ∈ (f.call env cw ctx).2.2, is_loop_event e = false := by
  intro e he
  cases f with
  | xshm => exact xshm_no_loop_event cw ctx e he
  | composite =>
    simp only [TakeScreenshotFunction.call, take_window_screenshot_composite] at he
    split at he
    · simp only [List.cons_append, List.nil_append, List.mem_cons] at he
      rcases he with rfl | rfl | he
      · rfl
      · rfl
      · exact xshm_no_loop_event _ _ e he
    · exact xshm_no_loop_event _ _ e he

theorem call_output_file (f : TakeScreenshotFunction) (env : Env) (cw : CaptureWorld)
    (ctx : ScreenshotContext) : (f.call env cw ctx).1.output_file = ctx.output_file := by
  cases f with
  | xshm => rfl
  | composite =>
    simp only [TakeScreenshotFunction.call, take_window_screenshot_composite]
    split <;> rfl

theorem captured_windows_of_inner (t : List Event) (h : ∀ e ∈ t, is_loop_event e = false) :
    captured_windows t = [] := by
  unfold captured_windows
  rw [List.filterMap_eq_nil_iff]
  intro e he
  have := h e he
  cases e <;> first | rfl | exact Bool.noConfusion this

theorem captured_paths_of_inner (t : List Event) (h : ∀ e ∈ t, is_loop_event e = false) :
    captured_paths t = [] := by
  unfold captured_paths
  rw [List.filterMap_eq_nil_iff]
  intro e he
  have := h e he
  cases e <;> first | rfl | exact Bool.noConfusion this

theorem window_reads_of_inner (t : List Event) (h : ∀ e ∈ t, is_loop_event e = false) :
    window_reads t = [] := by
  unfold window_reads
  rw [List.filterMap_eq_nil_iff]
  intro e he
  have := h e he
  cases e <;> first | rfl | exact Bool.noConfusion this

theorem argv_reads_of_inner (t : List Event) (h : ∀ e ∈ t, is_loop_event e = false) :
    argv_reads t = [] := by
  unfold argv_reads
  rw [List.filterMap_eq_nil_iff]
  intro e he
  have := h e he
  cases e <;> first | rfl | exact Bool.noConfusion this

theorem captured_windows_append (a b : List Event) :
    captured_windows (a ++ b) = captured_windows a ++ captured_windows b := by
  simp [captured_windows]

theorem captured_paths_append (a b : List Event) :
    captured_paths (a ++ b) = captured_paths a ++ captured_paths b := by
  simp [captured_paths]

theorem window_reads_append (a b : List Event) :
    window_reads (a ++ b) = window_reads a ++ window_reads b := by
  simp [window_reads]

theorem argv_reads_append (a b : List Event) :
    argv_reads (a ++ b) = argv_reads a ++ argv_reads b := by
  simp [argv_reads]

theorem composite_requests_append (a b : List Event) :
    composite_requests (a ++ b) = composite_requests a ++ composite_requests b := by
  simp [composite_requests]

/-- What `choose_output` leaves when `argv` is read inside its bounds. -/
theorem choose_output_some (argv : List (List Char)) (optind : Nat) (ud : Bool) (i : Nat)
    (out stamp : List Char) (h : ud = true → i + optind < argv.length) :
    ∃ o clock, choose_output argv optind ud i out stamp = some (o, clock) ∧
      captured_windows clock = [] ∧ window_reads clock = [] ∧
      ∀ k ∈ argv_reads clock, k < argv.length := by
  unfold choose_output
  cases ud with
  | false => exact ⟨out, [], rfl, rfl, rfl, by simp [argv_reads]⟩
  | true =>
    have hi := h rfl
    rw [if_pos rfl, List.getElem?_eq_getElem hi]
    refine ⟨_, _, rfl, rfl, rfl, ?_⟩
    intro k hk
    simp [argv_reads] at hk
    omega

/-! ## The capture loop -/

/-- The capture loop on a window array with a zero at index `z`, entered at
`i ≤ z`: it ends normally, captures the entries before the first zero, and
reads no array outside its bounds. -/
theorem capture_loop_run (env : Env) (argv : List (List Char)) (optind : Nat) (ud : Bool)
    (windows : List Nat) (f : TakeScreenshotFunction) (z : Nat)
    (hz : windows[z]? = some 0) (hargv : ud = true → z + optind ≤ argv.length) :
    ∀ (fuel i : Nat) (ctx : ScreenshotContext), i ≤ z → z - i < fuel →
      windows[i]? = some ctx.window →
      (capture_loop env argv optind ud windows f fuel i ctx).status = .exited 0 ∧
      captured_windows (capture_loop env argv optind ud windows f fuel i ctx).trace
        = (windows.drop i).takeWhile (fun w => w != 0) ∧
      (∀ k ∈ window_reads (capture_loop env argv optind ud windows f fuel i ctx).trace, k ≤ z) ∧
      (∀ k ∈ argv_reads (capture_loop env argv optind ud windows f fuel i ctx).trace,
        k < argv.length) ∧
      (captured_windows (capture_loop env argv optind ud windows f fuel i ctx).trace).length
        ≤ z - i := by
  intro fuel
  induction fuel with
  | zero => intro i ctx _ h; omega
  | succ fuel ih =>
    intro i ctx hiz hfuel hwi
    have hzlt : z < windows.length := (List.getElem?_eq_some.1 hz).1
    have hilt : i < windows.length := by omega
    have hdrop : windows.drop i = ctx.window :: windows.drop (i + 1) := by
      rw [List.drop_eq_getElem_cons hilt]
      congr 1
      rw [List.getElem?_eq_getElem hilt] at hwi
      exact Option.some.inj hwi
    by_cases hw : ctx.window = 0
    · simp [capture_loop, hw, hdrop, captured_windows, window_reads, argv_reads]
    · have hne : i ≠ z := by
        intro h
        subst h
        rw [hz] at hwi
        exact hw (Option.some.inj hwi).symm
      have hi1 : i + 1 ≤ z := by omega
      have hi1lt : i + 1 < windows.length := by omega
      obtain ⟨o, clock, hco, hc1, hc2, hc3⟩ :=
        choose_output_some argv optind ud i ctx.output_file (env.capture i).stamp
          (fun h => by have := hargv h; omega)
      have hnext : windows[i + 1]? = some (windows[i + 1]) := List.getElem?_eq_getElem hi1lt
      obtain ⟨r1, r2, r3, r4, r5⟩ := ih (i + 1)
        { (f.call env (env.capture i) { ctx with output_file := o }).1 with
          window := windows[i + 1] } hi1 (by omega) hnext
      have hinner := call_no_loop_event f env (env.capture i) { ctx with output_file := o }
      have hcw := captured_windows_of_inner _ hinner
      have hwr := window_reads_of_inner _ hinner
      have har := argv_reads_of_inner _ hinner
      simp only [capture_loop, hw, if_false, hco, hnext]
      refine ⟨r1, ?_, ?_, ?_, ?_⟩
      · simp only [captured_windows_append, hc1, hcw, r2, hdrop]
        simp [captured_windows, hw]
      · intro k hk
        simp only [window_reads_append, hc2, hwr, List.mem_append] at hk
        have e1 : window_reads [Event.take_screenshot ctx.window (cstr o)] = [] := rfl
        have e2 : window_reads [Event.read_windows (i + 1)] = [i + 1] := rfl
        rw [e1, e2] at hk
        simp only [List.not_mem_nil, false_or, or_false, List.mem_singleton] at hk
        rcases hk with hk | hk
        · omega
        · exact r3 k hk
      · intro k hk
        simp only [argv_reads_append, har, List.mem_append] at hk
        have e1 : argv_reads [Event.take_screenshot ctx.window (cstr o)] = [] := rfl
        have e2 : argv_reads [Event.read_windows (i + 1)] = [] := rfl
        rw [e1, e2] at hk
        simp only [List.not_mem_nil, false_or, or_false] at hk
        rcases hk with hk | hk
        · exact hc3 k hk
        · exact r4 k hk
      · simp only [captured_windows_append, hc1, hcw, List.length_append]
        have e1 : captured_windows [Event.take_screenshot ctx.window (cstr o)] = [ctx.window] :=
          rfl
        have e2 : captured_windows [Event.read_windows (i + 1)] = [] := rfl
        rw [e1, e2]
        simp only [List.length_nil, List.length_singleton]
        dsimp only at r5 ⊢
        omega

/-! ## The argument loop -/

theorem parse_loop_ok (argv : List (List Char)) (optind : Nat) :
    ∀ (n i : Nat) (ws : List Nat), optind ≤ i →
      (∀ k, i ≤ k → k < i + n → (strtoul (argv.getD k [])).erange = false) →
      i - optind + n ≤ ws.length →
      ∃ ws1, parse_loop argv optind n i ws = .ok ws1 ∧ ws1.length = ws.length ∧
        ∀ k : Nat, ws1[k]? =
          if i - optind ≤ k ∧ k < i - optind + n
          then some (parsed_window (argv.getD (k + optind) [])) else ws[k]? := by
  intro n
  induction n with
  | zero =>
    intro i ws _ _ _
    refine ⟨ws, rfl, rfl, ?_⟩
    intro k
    rw [if_neg (by omega)]
  | succ n ih =>
    intro i ws hi hok hlen
    have h0 := hok i (Nat.le_refl _) (by omega)
    obtain ⟨ws1, e1, e2, e3⟩ := ih (i + 1)
      (ws.set (i - optind) (parsed_window (argv.getD i []))) (by omega)
      (fun k hk1 hk2 => hok k (by omega) (by omega)) (by simp; omega)
    refine ⟨ws1, ?_, ?_, ?_⟩
    · simp only [parse_loop, h0]
      exact e1
    · simpa using e2
    · intro k
      rw [e3 k]
      by_cases hk : k = i - optind
      · subst hk
        rw [if_neg (by omega), if_pos (by omega)]
        rw [List.getElem?_set_self (by omega)]
        have e : i - optind + optind = i := by omega
        rw [e]
      · rw [List.getElem?_set_ne (Ne.symm hk)]
        by_cases hk2 : i - optind ≤ k ∧ k < i - optind + (n + 1)
        · rw [if_pos hk2, if_pos (by omega)]
        · rw [if_neg hk2, if_neg (by omega)]

/-- The window array the argument loop of `main` leaves when no argument is
refused: the parsed ids, then the zeros of the `memset`. -/
theorem parse_loop_main (argv : List (List Char)) (optind : Nat) (h2 : optind ≤ argv.length)
    (hparse : ∀ a ∈ argv.drop optind, (strtoul a).erange = false) :
    parse_loop argv optind (argv.length - optind) optind (List.replicate argv.length 0)
      = .ok (main_windows argv optind) := by
  unfold main_windows
  obtain ⟨ws1, e1, _, e3⟩ := parse_loop_ok argv optind (argv.length - optind) optind
    (List.replicate argv.length 0) (Nat.le_refl _)
    (fun k hk1 hk2 => by
      have hk : k < argv.length := by omega
      apply hparse
      rw [List.getD_eq_getElem _ _ hk]
      have hd : k - optind < (argv.drop optind).length := by simp; omega
      have : (argv.drop optind)[k - optind] = argv[k] := by
        rw [List.getElem_drop]
        congr 1
        omega
      rw [← this]
      exact List.getElem_mem _)
    (by simp)
  rw [e1]
  congr 1
  apply List.ext_getElem?
  intro k
  rw [e3 k]
  by_cases hk : k < argv.length - optind
  · rw [if_pos (by omega), List.getElem?_append_left (by simp; omega)]
    have hk2 : k + optind < argv.length := by omega
    rw [List.getElem?_map, List.getElem?_drop, List.getD_eq_getElem _ _ hk2,
      List.getElem?_eq_getElem (by omega)]
    simp [Nat.add_comm]
  · rw [if_neg (by omega), List.getElem?_append_right (by simp; omega)]
    simp only [List.length_map, List.length_drop]
    by_cases hk3 : k < argv.length
    · rw [List.getElem?_eq_getElem (by simp; omega), List.getElem?_eq_getElem (by simp; omega)]
      simp
    · rw [List.getElem?_eq_none (by simp; omega), List.getElem?_eq_none (by simp; omega)]

theorem main_windows_zero (argv : List (List Char)) (optind : Nat) (h1 : 1 ≤ optind) :
    (main_windows argv optind)[argv.length - optind]? = some 0 := by
  unfold main_windows
  rw [List.getElem?_append_right (by simp)]
  simp only [List.length_map, List.length_drop, Nat.sub_self]
  rw [List.getElem?_eq_getElem (by simp; omega)]
  simp

theorem main_windows_head (argv : List (List Char)) (optind : Nat) (h1 : 1 ≤ optind) :
    (main_windows argv optind)[0]? = some ((main_windows argv optind).headD 0) := by
  have hlen : 0 < (main_windows argv optind).length := by
    unfold main_windows
    simp
    omega
  cases h : main_windows argv optind with
  | nil => rw [h] at hlen; simp at hlen
  | cons a l => simp

/-- A run of `main` that passes the argument loop and the two start-up
checks: it is the start-up, the capture loop and the shutdown. -/
theorem main_run (env : Env) (argv : List (List Char)) (optind : Nat) (oargs : List (List Char))
    (h1 : 1 ≤ optind) (h2 : optind ≤ argv.length)
    (hparse : ∀ a ∈ argv.drop optind, (strtoul a).erange = false)
    (hdisp : env.display_opens = true) (hshm : env.shm_extension = true) :
    (main_capture_loop env argv optind oargs).status = .exited 0 ∧
    main env argv optind oargs =
      ⟨.exited 0,
        [Event.setenv_gdk_backend] ++ [Event.XOpenDisplay, Event.XShmQueryExtension]
          ++ (check_xcomposite env).2 ++ (select_strategy (check_xcomposite env).1).2
          ++ [Event.read_windows 0] ++ (main_capture_loop env argv optind oargs).trace
          ++ [Event.XFlush, Event.XCloseDisplay]⟩ := by
  have hloop := (capture_loop_run env argv optind (option_loop oargs).1 (main_windows argv optind)
    (select_strategy (check_xcomposite env).1).1 (argv.length - optind)
    (main_windows_zero argv optind h1) (fun _ => by omega) (argv.length + 1) 0
    { window := (main_windows argv optind).headD 0, output_file := (option_loop oargs).2 }
    (Nat.zero_le _) (by omega) (main_windows_head argv optind h1)).1
  refine ⟨hloop, ?_⟩
  unfold main_capture_loop at hloop
  unfold main
  simp only [parse_loop_main argv optind h2 hparse, hdisp, hshm, main_windows_head argv optind h1]
  simp only [main_capture_loop, hloop]
  rfl

theorem setup_no_loop_event (env : Env) :
    ∀ e ∈ [Event.setenv_gdk_backend] ++ [Event.XOpenDisplay, Event.XShmQueryExtension]
        ++ (check_xcomposite env).2 ++ (select_strategy (check_xcomposite env).1).2,
      is_loop_event e = false := by
  intro e he
  simp only [check_xcomposite, select_strategy] at he
  cases h1 : env.composite_extension <;> rcases h2 : env.composite_version with _ | ⟨a, b⟩ <;>
    simp only [h1, h2] at he
  all_goals first
    | (simp at he
       rcases he with rfl | rfl | rfl | rfl | rfl | rfl | rfl <;> rfl)
    | (split_ifs at he <;> simp at he <;>
        (rcases he with rfl | rfl | rfl | rfl | rfl | rfl | rfl | rfl) <;> rfl)

theorem setup_no_composite_request (env : Env) :
    ∀ e ∈ [Event.setenv_gdk_backend] ++ [Event.XOpenDisplay, Event.XShmQueryExtension]
        ++ (check_xcomposite env).2 ++ (select_strategy (check_xcomposite env).1).2,
      is_composite_request e = false := by
  intro e he
  simp only [check_xcomposite, select_strategy] at he
  cases h1 : env.composite_extension <;> rcases h2 : env.composite_version with _ | ⟨a, b⟩ <;>
    simp only [h1, h2] at he
  all_goals first
    | (simp at he
       rcases he with rfl | rfl | rfl | rfl | rfl | rfl | rfl <;> rfl)
    | (split_ifs at he <;> simp at he <;>
        (rcases he with rfl | rfl | rfl | rfl | rfl | rfl | rfl | rfl) <;> rfl)

/-- What a run of `main` that reaches the capture loop shows of its loop: the
captures, the array reads and the paths are those of the loop, after the
first read `windows[0]`. -/
theorem main_observations (env : Env) (argv : List (List Char)) (optind : Nat)
    (oargs : List (List Char)) (h1 : 1 ≤ optind) (h2 : optind ≤ argv.length)
    (hparse : ∀ a ∈ argv.drop optind, (strtoul a).erange = false)
    (hdisp : env.display_opens = true) (hshm : env.shm_extension = true) :
    (main env argv optind oargs).status = .exited 0 ∧
    captured_windows (main env argv optind oargs).trace
      = captured_windows (main_capture_loop env argv optind oargs).trace ∧
    captured_paths (main env argv optind oargs).trace
      = captured_paths (main_capture_loop env argv optind oargs).trace ∧
    window_reads (main env argv optind oargs).trace
      = 0 :: window_reads (main_capture_loop env argv optind oargs).trace ∧
    argv_reads (main env argv optind oargs).trace
      = argv_reads (main_capture_loop env argv optind oargs).trace := by
  have hm := (main_run env argv optind oargs h1 h2 hparse hdisp hshm).2
  have hs := setup_no_loop_event env
  rw [hm]
  refine ⟨rfl, ?_, ?_, ?_, ?_⟩
  · simp only [captured_windows_append, captured_windows_of_inner _ hs]
    simp [captured_windows]
  · simp only [captured_paths_append, captured_paths_of_inner _ hs]
    simp [captured_paths]
  · simp only [window_reads_append, window_reads_of_inner _ hs]
    simp [window_reads]
  · simp only [argv_reads_append, argv_reads_of_inner _ hs]
    simp [argv_reads]

theorem getElem_mem_drop (argv : List (List Char)) (optind k : Nat) (hk : k + optind < argv.length) :
    argv[k + optind] ∈ argv.drop optind := by
  have hd : k < (argv.drop optind).length := by simp; omega
  have : (argv.drop optind)[k] = argv[k + optind] := by
    rw [List.getElem_drop]
    congr 1
    omega
  rw [← this]
  exact List.getElem_mem _

theorem captured_paths_length (t : List Event) :
    (captured_paths t).length = (captured_windows t).length := by
  induction t with
  | nil => rfl
  | cons e es ih =>
    cases e <;> simp_all [captured_paths, captured_windows, List.filterMap_cons]

/-- The paths the capture loop hands out when no `-o` was given: the `k`-th
iteration names its file after the clock reading of that iteration. -/
theorem capture_loop_paths (env : Env) (argv : List (List Char)) (optind : Nat)
    (windows : List Nat) (f : TakeScreenshotFunction)
    (hstamp : ∀ k, NUL ∉ (env.capture k).stamp ∧ (env.capture k).stamp.length = 14)
    (hargs : ∀ a ∈ argv.drop optind, NUL ∉ a ∧ a.length + 24 < FILENAME_MAX) :
    ∀ (fuel i : Nat) (ctx : ScreenshotContext), ctx.output_file.length = FILENAME_MAX →
      ∀ (k : Nat) (path : List Char),
        (captured_paths (capture_loop env argv optind true windows f fuel i ctx).trace)[k]?
          = some path →
        path = "xpic-".toList ++ (env.capture (i + k)).stamp ++ "-".toList
                 ++ argv.getD (i + k + optind) [] ++ ".png".toList := by
  intro fuel
  induction fuel with
  | zero =>
    intro i ctx _ k path h
    simp [capture_loop, captured_paths] at h
  | succ fuel ih =>
    intro i ctx hbuf k path h
    by_cases hw : ctx.window = 0
    · simp [capture_loop, hw, captured_paths] at h
    · simp only [capture_loop, hw, if_false, choose_output, if_true] at h
      by_cases hi : i + optind < argv.length
      · rw [List.getElem?_eq_getElem hi] at h
        simp only [] at h
        have hmem := hargs _ (getElem_mem_drop argv optind i hi)
        have hname := get_default_file_name_cstr ctx.output_file (env.capture i).stamp
          argv[i + optind] ".png".toList hbuf (hstamp i).1 hmem.1 (by decide)
          (by have := (hstamp i).2
              have := hmem.2
              have e4 : (".png".toList).length = 4 := rfl
              rw [e4]
              omega)
        have hinner := captured_paths_of_inner _ (call_no_loop_event f env (env.capture i)
          { ctx with
            output_file := get_default_file_name ctx.output_file (env.capture i).stamp
              argv[i + optind] ".png".toList })
        have hhead : ∀ rest : List (List Char), ((cstr (get_default_file_name ctx.output_file
            (env.capture i).stamp argv[i + optind] ".png".toList)) :: rest)[0]? = some path →
            path = "xpic-".toList ++ (env.capture (i + 0)).stamp ++ "-".toList
                 ++ argv.getD (i + 0 + optind) [] ++ ".png".toList := by
          intro rest h0
          simp only [List.getElem?_cons_zero, Option.some.injEq] at h0
          rw [← h0, hname.1, Nat.add_zero, List.getD_eq_getElem _ _ hi]
        cases hn : windows[i + 1]? with
        | none =>
          rw [hn] at h
          simp only [captured_paths_append, hinner] at h
          have e1 : captured_paths [Event.read_argv (i + optind), Event.time] = [] := rfl
          have e2 : captured_paths [Event.read_windows (i + 1)] = [] := rfl
          rw [e1, e2] at h
          cases k with
          | zero => exact hhead _ h
          | succ k => simp [captured_paths] at h
        | some w =>
          rw [hn] at h
          simp only [captured_paths_append, hinner] at h
          have e1 : captured_paths [Event.read_argv (i + optind), Event.time] = [] := rfl
          have e2 : captured_paths [Event.read_windows (i + 1)] = [] := rfl
          rw [e1, e2] at h
          cases k with
          | zero => exact hhead _ h
          | succ k =>
            simp only [captured_paths, List.nil_append, List.append_nil, List.filterMap_cons,
              List.filterMap_nil, List.cons_append, List.getElem?_cons_succ] at h
            have := ih (i + 1) _ (by
              simp only [call_output_file]
              exact hname.2) k path h
            rw [this]
            have e : i + 1 + k = i + (k + 1) := by omega
            rw [e]
      · have hn : argv[i + optind]? = none := List.getElem?_eq_none (by omega)
        rw [hn] at h
        simp [captured_paths] at h

theorem demoEnv_stamp (k : Nat) :
    (demoEnv.capture k).stamp.length = 14 ∧ ∀ c ∈ (demoEnv.capture k).stamp, c.isDigit = true := by
  have hk : k % 10 < 10 := Nat.mod_lt _ (by decide)
  have e : (demoEnv.capture k).stamp = "2024010112000".toList ++ [Char.ofNat (48 + k % 10)] := rfl
  rw [e]
  generalize k % 10 = d at hk
  interval_cases d <;> decide

/-- C8 as stated fails: in the run `xpic 0x2a 7` without `-o`, with a clock
that advances by one second between the two captures, the two default file
names carry different timestamps. -/
theorem clock_is_read_for_every_window :
    captured_paths (main demoEnv argv_two 1 []).trace
      = ["xpic-20240101120000-0x2a.png".toList, "xpic-20240101120001-7.png".toList] ∧
    (captured_paths (main demoEnv argv_two 1 []).trace).map (fun p => (p.drop 5).take 14)
      = ["20240101120000".toList, "20240101120001".toList] := by
  decide

/-- C8, amended: in a run without `-o` every capture gets one default file
name, and the name of the `k`-th capture carries the clock reading of that
capture's own call of `get_default_file_name`:
`"xpic-" ++ stamp k ++ "-" ++ argv[optind + k] ++ ".png"`. -/
theorem default_names_follow_the_clock (env : Env) (argv : List (List Char)) (optind : Nat)
    (h1 : 1 ≤ optind) (h2 : optind ≤ argv.length)
    (hparse : ∀ a ∈ argv.drop optind, (strtoul a).erange = false)
    (hdisp : env.display_opens = true) (hshm : env.shm_extension = true)
    (hstamp : ∀ k, (env.capture k).stamp.length = 14 ∧
      ∀ c ∈ (env.capture k).stamp, c.isDigit = true)
    (hargs : ∀ a ∈ argv.drop optind, NUL ∉ a ∧ a.length + 24 < FILENAME_MAX) :
    (captured_paths (main env argv optind []).trace).length
      = (captured_windows (main env argv optind []).trace).length ∧
    ∀ (k : Nat) (path : List Char),
      (captured_paths (main env argv optind []).trace)[k]? = some path →
      path = "xpic-".toList ++ (env.capture k).stamp ++ "-".toList
               ++ argv.getD (k + optind) [] ++ ".png".toList := by
  refine ⟨captured_paths_length _, ?_⟩
  intro k path h
  rw [(main_observations env argv optind [] h1 h2 hparse hdisp hshm).2.2.1] at h
  have := capture_loop_paths env argv optind (main_windows argv optind)
    (select_strategy (check_xcomposite env).1).1
    (fun j => ⟨no_nul_of_digits _ (hstamp j).2, (hstamp j).1⟩) hargs (argv.length + 1) 0
    { window := (main_windows argv optind).headD 0, output_file := (option_loop []).2 }
    (by simp [option_loop]) k path h
  rw [this, Nat.zero_add]

/-- Witness for C8: the two names of the run `xpic 0x2a 7`. -/
theorem default_names_follow_the_clock_witness :
    "xpic-20240101120001-7.png".toList
      = "xpic-".toList ++ (demoEnv.capture 1).stamp ++ "-".toList
          ++ argv_two.getD (1 + 1) [] ++ ".png".toList :=
  (default_names_follow_the_clock demoEnv argv_two 1 (by decide) (by decide) (by decide)
    rfl rfl demoEnv_stamp (by decide)).2 1 _ (by decide)

/-- C1 on the command line `xpic 0x2a abc`: `strtoul` gives 0 for `abc` without
setting `errno`, so the argument loop does not refuse it; the display is
opened, window 42 is captured and its file is opened for writing, and `main`
returns 0. -/
theorem malformed_id_is_not_refused :
    strtoul "abc".toList = ⟨0, false⟩ ∧
    (main demoEnv argv_malformed 1 []).status = .exited 0 ∧
    Event.XOpenDisplay ∈ (main demoEnv argv_malformed 1 []).trace ∧
    captured_windows (main demoEnv argv_malformed 1 []).trace = [42] ∧
    Event.fopen "xpic-20240101120000-0x2a.png".toList ∈ (main demoEnv argv_malformed 1 []).trace := by
  decide

/-- An id above `ULONG_MAX` is the one kind of argument the loop refuses:
`main` returns -1 before the display is opened. -/
theorem overflowing_id_is_refused (env : Env) :
    main env ["xpic".toList, "18446744073709551616".toList] 1 []
      = ⟨.exited (-1), [Event.setenv_gdk_backend, Event.error "bad argument %s: %s\n"]⟩ := by
  rfl

/-! ## Cleanup after a capture -/

theorem choose_output_no_request (argv : List (List Char)) (optind : Nat) (ud : Bool) (i : Nat)
    (out stamp o : List Char) (clock : List Event)
    (h : choose_output argv optind ud i out stamp = some (o, clock)) :
    ∀ e ∈ clock, is_composite_request e = false := by
  unfold choose_output at h
  cases ud with
  | false =>
    simp only [Bool.false_eq_true, if_false, Option.some.injEq, Prod.mk.injEq] at h
    intro e he
    rw [← h.2] at he
    simp at he
  | true =>
    simp only [if_true] at h
    cases ha : argv[i + optind]? with
    | none => rw [ha] at h; simp at h
    | some id =>
      rw [ha] at h
      simp only [Option.some.injEq, Prod.mk.injEq] at h
      intro e he
      rw [← h.2] at he
      simp only [List.mem_cons, List.mem_singleton, List.not_mem_nil, or_false] at he
      rcases he with rfl | rfl <;> rfl

theorem capture_loop_xshm_no_request (env : Env) (argv : List (List Char)) (optind : Nat)
    (ud : Bool) (windows : List Nat) :
    ∀ (fuel i : Nat) (ctx : ScreenshotContext),
      ∀ e ∈ (capture_loop env argv optind ud windows .xshm fuel i ctx).trace,
        is_composite_request e = false := by
  intro fuel
  induction fuel with
  | zero => intro i ctx e he; simp [capture_loop] at he
  | succ fuel ih =>
    intro i ctx e he
    by_cases hw : ctx.window = 0
    · simp [capture_loop, hw] at he
    · simp only [capture_loop, hw, if_false] at he
      cases hc : choose_output argv optind ud i ctx.output_file (env.capture i).stamp with
      | none => rw [hc] at he; simp at he
      | some oc =>
        obtain ⟨o, clock⟩ := oc
        have hclock := choose_output_no_request argv optind ud i _ _ o clock hc
        rw [hc] at he
        simp only [] at he
        have hshot := xshm_no_composite_request (env.capture i) { ctx with output_file := o }
        cases hn : windows[i + 1]? with
        | none =>
          rw [hn] at he
          simp only [List.mem_append, List.mem_singleton] at he
          rcases he with ((he | he) | he) | he
          · exact hclock e he
          · rw [he]; rfl
          · exact hshot e he
          · rw [he]; rfl
        | some w =>
          rw [hn] at he
          simp only [List.mem_append, List.mem_singleton] at he
          rcases he with (((he | he) | he) | he) | he
          · exact hclock e he
          · rw [he]; rfl
          · exact hshot e he
          · rw [he]; rfl
          · exact ih _ _ e he

/-- When `check_xcomposite` fails, no run of `main` asks the compositing
extension anything about a window. -/
theorem main_no_composite_request (env : Env) (h : (check_xcomposite env).1 ≠ 0)
    (argv : List (List Char)) (optind : Nat) (oargs : List (List Char)) :
    composite_requests (main env argv optind oargs).trace = [] := by
  unfold composite_requests
  rw [List.filter_eq_nil_iff]
  intro e he
  suffices key : is_composite_request e = false by simp [key]
  have hsel : select_strategy (check_xcomposite env).1
      = (.xshm, [Event.stdout "falling back to XShm\n"]) := by
    simp [select_strategy, h]
  have hsetup := setup_no_composite_request env
  rw [hsel] at hsetup
  unfold main at he
  simp only [hsel] at he
  split at he
  · simp only [List.mem_append, List.mem_singleton] at he
    rcases he with rfl | rfl <;> rfl
  · split at he
    · simp only [List.mem_append, List.mem_singleton, List.mem_cons, List.not_mem_nil,
        or_false] at he
      rcases he with rfl | rfl | rfl <;> rfl
    · split at he
      · simp only [List.mem_append, List.mem_singleton, List.mem_cons, List.not_mem_nil,
          or_false] at he
        rcases he with rfl | rfl | rfl | rfl <;> rfl
      · split at he
        · rcases List.mem_append.1 he with he | he
          · exact hsetup e he
          · rw [List.mem_singleton.1 he]; rfl
        · split at he
          · rcases List.mem_append.1 he with he | he
            · rcases List.mem_append.1 he with he | he
              · rcases List.mem_append.1 he with he | he
                · exact hsetup e he
                · rw [List.mem_singleton.1 he]; rfl
              · exact capture_loop_xshm_no_request _ _ _ _ _ _ _ _ e he
            · simp only [List.mem_cons, List.not_mem_nil, or_false] at he
              rcases he with rfl | rfl <;> rfl
          · rcases List.mem_append.1 he with he | he
            · rcases List.mem_append.1 he with he | he
              · exact hsetup e he
              · rw [List.mem_singleton.1 he]; rfl
            · exact capture_loop_xshm_no_request _ _ _ _ _ _ _ _ e he

theorem drawables_skip_requests (w : Nat) (t : List Event) :
    drawables ([Event.XCompositeRedirectWindow w, Event.XCompositeNameWindowPixmap w] ++ t)
      = drawables t := rfl

theorem xshm_composite_requests (cw : CaptureWorld) (ctx : ScreenshotContext) :
    composite_requests (take_window_screenshot_xshm cw ctx).2 = [] := by
  unfold composite_requests
  rw [List.filter_eq_nil_iff]
  intro e he
  simp [xshm_no_composite_request cw ctx e he]

theorem xshm_drawables_mem (cw : CaptureWorld) (ctx : ScreenshotContext) :
    drawables (take_window_screenshot_xshm cw ctx).2 ≠ [] ∧
      ∀ d ∈ drawables (take_window_screenshot_xshm cw ctx).2, d = ctx.window := by
  rw [xshm_drawables]
  split <;> simp

/-- C3: a direct capture asks nothing of the compositing extension and works
on the handle it is given.  For the root window either strategy is the direct
capture of that window.  For another window, when the probe succeeded, the
capture is one redirection request then one name-pixmap request for the
window, followed by the direct capture of the returned pixmap.  When the probe
failed the capture is direct and no run of `main` issues a redirection. -/
theorem redirection_only_for_non_root (env : Env) (cw : CaptureWorld) (ctx : ScreenshotContext) :
    (composite_requests (take_window_screenshot_xshm cw ctx).2 = [] ∧
      drawables (take_window_screenshot_xshm cw ctx).2 ≠ [] ∧
      ∀ d ∈ drawables (take_window_screenshot_xshm cw ctx).2, d = ctx.window) ∧
    (ctx.window = env.root → ∀ f : TakeScreenshotFunction,
      (f.call env cw ctx).2.2 = (take_window_screenshot_xshm cw ctx).2) ∧
    (ctx.window ≠ env.root → (check_xcomposite env).1 = 0 →
      env.name_pixmap ctx.window < 2 ^ 32 →
      ((select_strategy (check_xcomposite env).1).1.call env cw ctx).2.2
        = [Event.XCompositeRedirectWindow ctx.window,
            Event.XCompositeNameWindowPixmap ctx.window]
          ++ (take_window_screenshot_xshm cw
                { ctx with window := env.name_pixmap ctx.window }).2 ∧
      composite_requests ((select_strategy (check_xcomposite env).1).1.call env cw ctx).2.2
        = [Event.XCompositeRedirectWindow ctx.window,
            Event.XCompositeNameWindowPixmap ctx.window] ∧
      drawables ((select_strategy (check_xcomposite env).1).1.call env cw ctx).2.2 ≠ [] ∧
      ∀ d ∈ drawables ((select_strategy (check_xcomposite env).1).1.call env cw ctx).2.2,
        d = env.name_pixmap ctx.window) ∧
    ((check_xcomposite env).1 ≠ 0 →
      ((select_strategy (check_xcomposite env).1).1.call env cw ctx).2.2
        = (take_window_screenshot_xshm cw ctx).2 ∧
      ∀ (argv : List (List Char)) (optind : Nat) (oargs : List (List Char)),
        composite_requests (main env argv optind oargs).trace = []) := by
  refine ⟨⟨xshm_composite_requests cw ctx, xshm_drawables_mem cw ctx⟩, ?_, ?_, ?_⟩
  · intro hroot f
    cases f with
    | xshm => rfl
    | composite =>
      simp only [TakeScreenshotFunction.call, take_window_screenshot_composite, hroot, ne_eq,
        not_true_eq_false, if_false]
  · intro hroot hcheck hp
    have hsel : (select_strategy (check_xcomposite env).1).1 = .composite := by
      simp [select_strategy, hcheck]
    have hmod : env.name_pixmap ctx.window % UINT_RANGE = env.name_pixmap ctx.window :=
      Nat.mod_eq_of_lt hp
    have htrace : ((select_strategy (check_xcomposite env).1).1.call env cw ctx).2.2
        = [Event.XCompositeRedirectWindow ctx.window,
            Event.XCompositeNameWindowPixmap ctx.window]
          ++ (take_window_screenshot_xshm cw
                { ctx with window := env.name_pixmap ctx.window }).2 := by
      rw [hsel]
      simp only [TakeScreenshotFunction.call, take_window_screenshot_composite, hroot, ne_eq,
        not_false_eq_true, if_true, hmod]
    rw [htrace]
    refine ⟨rfl, ?_, ?_⟩
    · rw [composite_requests_append, xshm_composite_requests]
      rfl
    · rw [drawables_skip_requests]
      exact xshm_drawables_mem cw { ctx with window := env.name_pixmap ctx.window }
  · intro hcheck
    refine ⟨?_, main_no_composite_request env hcheck⟩
    have hsel : (select_strategy (check_xcomposite env).1).1 = .xshm := by
      simp [select_strategy, hcheck]
    rw [hsel]
    rfl

/-- Witness for C3: window 42 under the root `0x100` with compositing 0.4. -/
theorem redirection_only_for_non_root_witness :
    composite_requests
        ((select_strategy (check_xcomposite demoEnv).1).1.call demoEnv (demoEnv.capture 0)
          { window := 42, output_file := "f.png".toList }).2.2
      = [Event.XCompositeRedirectWindow 42, Event.XCompositeNameWindowPixmap 42] :=
  ((redirection_only_for_non_root demoEnv (demoEnv.capture 0)
      { window := 42, output_file := "f.png".toList }).2.2.1
    (by decide) (by decide) (by decide)).2.1

end Xpic
